import Mathlib

/-!
Shallow embedding of the near-message contract (src/src/lib.rs).

The contract state is a record of association-list maps mirroring the
`LookupMap` / `UnorderedMap` / `UnorderedSet` fields of `Contract`.
Machine integers (`u128`, `u64`) are modelled as `Nat`; none of the
properties below involve wrap-around, and the one subtraction in the
source (`mail_delete`) is exactly the point of the underflow claim.

Each mutating entry point is embedded twice:
- a `..._raw` function that traces the Rust body statement by statement,
  returning either the final state or, at the exact program point of a
  failed `assert!` / `unwrap()`, the error together with the state as
  mutated so far (the partial state the body had built up in program
  order);
- the public operation, which applies the NEAR call semantics assumed
  by the design (one atomic step per call, a panic aborts the call and
  reverts every state change): it returns the committed post-state plus
  an optional error, and on error the committed post-state is the
  pre-state.

`mod email;` and `mod storage_impl;` are declared in lib.rs but those
files are not present under src/; the pieces of them this model needs
(`STORAGE_PER_MAIL`, `storage_balance_of`, account registration) are
modelled from the spec and marked as such on their declarations.
-/

namespace NearMessage

abbrev AccountId := String

abbrev EmailID := Nat

/-- The `Email` record stored in the contract (fields of `struct Email`
per its construction site in `send_mail`: title, content, timestamp,
optional fee). -/
structure Email where
  title : String
  content : String
  timestamp : Nat
  fee : Option Nat
deriving Repr, DecidableEq

/-- Modelled from the spec: `AccountStorageState` of the external
StorageLedger (spec §3, §6) — storage_impl.rs is absent from src/.
lib.rs itself reads and writes the `used` field of `VAccount`;
`available` is the stored available credit the ledger reports. -/
structure VAccount where
  available : Nat
  used : Nat
deriving Repr, DecidableEq

/-- Association-list model of the contract's key/value collections
(`LookupMap` / `UnorderedMap`): keys are unique in every state the
operations construct. -/
abbrev Fmap (α β : Type) := List (α × β)

def Fmap.lookup {α β : Type} [DecidableEq α] : Fmap α β → α → Option β
  | [], _ => none
  | (k, v) :: rest, a => if k = a then some v else Fmap.lookup rest a

def Fmap.insert {α β : Type} [DecidableEq α] : Fmap α β → α → β → Fmap α β
  | [], a, b => [(a, b)]
  | (k, v) :: rest, a, b =>
      if k = a then (a, b) :: rest else (k, v) :: Fmap.insert rest a b

def Fmap.remove {α β : Type} [DecidableEq α] : Fmap α β → α → Fmap α β
  | [], _ => []
  | (k, v) :: rest, a =>
      if k = a then Fmap.remove rest a else (k, v) :: Fmap.remove rest a

/-- `UnorderedSet.insert`: append the element if it is not already
present (a set, not a sequence). -/
def setInsert (s : List EmailID) (x : EmailID) : List EmailID :=
  if x ∈ s then s else s ++ [x]

/-- The contract state: the five maps plus the two scalars
(`email_count`, `donation_contract_account`), mirroring
`struct Contract`. -/
structure Contract where
  senders : Fmap AccountId (List EmailID)
  receivers : Fmap AccountId (List EmailID)
  emails : Fmap EmailID Email
  email_count : Nat
  accounts : Fmap AccountId VAccount
  donation_contract_account : Option AccountId
deriving Repr, DecidableEq

/-- `Contract::new`. -/
def Contract.new : Contract :=
  { senders := [], receivers := [], emails := [], email_count := 0,
    accounts := [], donation_contract_account := none }

/-- The per-call environment supplied by the NEAR host, plus the
`STORAGE_PER_MAIL` constant. The constant is declared in the absent
email/storage_impl module, so its value is not in src/; it is carried
here as a parameter (modelled from the spec: a fixed bytes-per-message
constant, spec §4.3). -/
structure Env where
  predecessor : AccountId
  block_timestamp : Nat
  attached_deposit : Nat
  storage_byte_cost : Nat
  storage_per_mail : Nat
deriving Repr, DecidableEq

/-- The distinct abort causes of the contract's entry points: each
`assert!` message and each `unwrap()` site. `noneUnwrap` is the panic of
`Option::unwrap` on `None` (the sender-set unwrap in `delete_mail`);
`notFound` is the same panic at an email-store lookup, which the spec
surfaces as the `NotFound` failure of fetch/list. -/
inductive MailError where
  | oneYoctoRequired
  | accountNotRegistered
  | insufficientStorage
  | feeNotAllowed
  | notSender
  | notFound
  | noneUnwrap
deriving Repr, DecidableEq

/-- Result of running a mutating body statement-by-statement: either the
final state, or the abort cause together with the state as mutated so
far at the abort point (which the host then discards). -/
inductive TxResult where
  | ok : Contract → TxResult
  | halted : MailError → Contract → TxResult
deriving Repr, DecidableEq

/-- Result of a read-only (view) entry point. -/
inductive ViewRes (α : Type) where
  | ok : α → ViewRes α
  | halted : MailError → ViewRes α
deriving Repr, DecidableEq

/-- Modelled from the spec: the StorageLedger's available-credit view
(spec §6 `availableCredit`); storage_impl.rs is absent from src/.
`can_send_mail` reads `.available` of `storage_balance_of(account)`,
which is `none` for an unregistered account. -/
def Contract.storage_balance_of (st : Contract) (account : AccountId) :
    Option Nat :=
  (st.accounts.lookup account).map VAccount.available

/-- `Contract::can_send_mail`. Returns `none` when the
`storage_balance_of(...).unwrap()` would panic (unregistered account),
otherwise the boolean value of the strict quota comparison. -/
def Contract.can_send_mail (st : Contract) (e : Env) (account : AccountId) :
    Option Bool :=
  match st.storage_balance_of account with
  | none => none
  | some available_storage =>
    match st.senders.lookup account with
    | some sender =>
        some (decide (available_storage >
          (sender.length + 1) * e.storage_per_mail * e.storage_byte_cost))
    | none =>
        some (decide (available_storage >
          e.storage_per_mail * e.storage_byte_cost))

/-- `Contract::add_donation_contract_account`. -/
def Contract.add_donation_contract_account (st : Contract)
    (account : AccountId) : Contract :=
  { st with donation_contract_account := some account }

/-- `Contract::send_mail`, traced in program order: one-yocto check,
registration check, quota check, charge `used`, bump `email_count`,
fee check for the donation account, insert the email, update the sender
set, update the receiver set. -/
def Contract.send_mail_raw (st : Contract) (e : Env) (receiver : AccountId)
    (title content : String) (fee : Option Nat) : TxResult :=
  if e.attached_deposit ≠ 1 then .halted .oneYoctoRequired st else
  let sender := e.predecessor
  match st.accounts.lookup sender with
  | none => .halted .accountNotRegistered st
  | some vaccount =>
    match st.can_send_mail e sender with
    | none => .halted .noneUnwrap st
    | some false => .halted .insufficientStorage st
    | some true =>
      let vaccount' : VAccount :=
        { vaccount with
          used := vaccount.used + e.storage_per_mail * e.storage_byte_cost }
      let st1 : Contract :=
        { st with accounts := st.accounts.insert sender vaccount' }
      let current_count : EmailID := st1.email_count
      let st2 : Contract := { st1 with email_count := st1.email_count + 1 }
      if st2.donation_contract_account = some sender ∧ fee.isSome then
        .halted .feeNotAllowed st2
      else
        let email : Email :=
          { title := title, content := content,
            timestamp := e.block_timestamp, fee := fee }
        let st3 : Contract :=
          { st2 with emails := st2.emails.insert current_count email }
        let st4 : Contract :=
          match st3.senders.lookup sender with
          | some sender_vec =>
              { st3 with senders :=
                  st3.senders.insert sender (setInsert sender_vec current_count) }
          | none =>
              { st3 with senders :=
                  st3.senders.insert sender (setInsert [] current_count) }
        let st5 : Contract :=
          match st4.receivers.lookup receiver with
          | some receiver_vec =>
              { st4 with receivers :=
                  st4.receivers.insert receiver (setInsert receiver_vec current_count) }
          | none =>
              { st4 with receivers :=
                  st4.receivers.insert receiver (setInsert [] current_count) }
        .ok st5

/-- A NEAR call commits the traced body atomically: a panic aborts the
call and the host reverts every state change, so the caller-visible
post-state on error is the pre-state. -/
def Contract.send_mail (st : Contract) (e : Env) (receiver : AccountId)
    (title content : String) (fee : Option Nat) :
    Contract × Option MailError :=
  match st.send_mail_raw e receiver title content fee with
  | .ok s => (s, none)
  | .halted err _ => (st, some err)

/-- `Contract::delete_mail`, traced in program order: unwrap the
caller's sender set (panics on `None`), assert
`!set.contains(email_id)` with message "Caller is not sender", then
remove the email. -/
def Contract.delete_mail_raw (st : Contract) (e : Env)
    (email_id : EmailID) : TxResult :=
  let sender := e.predecessor
  match st.senders.lookup sender with
  | none => .halted .noneUnwrap st
  | some sender_set =>
    if email_id ∈ sender_set then .halted .notSender st
    else .ok { st with emails := st.emails.remove email_id }

/-- Committed semantics of `delete_mail` (panic reverts). -/
def Contract.delete_mail (st : Contract) (e : Env) (email_id : EmailID) :
    Contract × Option MailError :=
  match st.delete_mail_raw e email_id with
  | .ok s => (s, none)
  | .halted err _ => (st, some err)

/-- `Contract::get_email` (fetch): `emails.get(&id).unwrap()`, the
unwrap panic on a missing id being the `NotFound` failure. -/
def Contract.get_email (st : Contract) (email_id : EmailID) : ViewRes Email :=
  match st.emails.lookup email_id with
  | some mail => .ok mail
  | none => .halted .notFound

/-- `Contract::mail_exist`: number of live email entries. -/
def Contract.mail_exist (st : Contract) : Nat :=
  st.emails.length

/-- `Contract::mail_delete`: `email_count - mail_exist` (u128
subtraction in the source, which requires `mail_exist ≤ email_count`). -/
def Contract.mail_delete (st : Contract) : Nat :=
  st.email_count - st.emails.length

/-- The resolution loop shared by `get_mail_send` / `get_mail_receive`:
`self.emails.get(&index).unwrap()` for each listed id, so a stale id
aborts the call. -/
def resolveAll (st : Contract) : List EmailID → ViewRes (List Email)
  | [] => .ok []
  | id :: rest =>
    match st.emails.lookup id with
    | none => .halted .notFound
    | some mail =>
      match resolveAll st rest with
      | .ok mails => .ok (mail :: mails)
      | .halted err => .halted err

/-- `Contract::get_mail_send`. -/
def Contract.get_mail_send (st : Contract) (sender : AccountId) :
    ViewRes (List Email) :=
  match st.senders.lookup sender with
  | some sender_vec => resolveAll st sender_vec
  | none => .ok []

/-- `Contract::get_mail_receive`. -/
def Contract.get_mail_receive (st : Contract) (receiver : AccountId) :
    ViewRes (List Email) :=
  match st.receivers.lookup receiver with
  | some receiver_vec => resolveAll st receiver_vec
  | none => .ok []

/-- `Contract::get_mail_send_num` (countSent): raw sender-index size,
`0` for an account never seen. -/
def Contract.get_mail_send_num (st : Contract) (sender : AccountId) : Nat :=
  match st.senders.lookup sender with
  | some sender_vec => sender_vec.length
  | none => 0

/-- `Contract::get_mail_receive_num` (countReceived). -/
def Contract.get_mail_receive_num (st : Contract) (receiver : AccountId) :
    Nat :=
  match st.receivers.lookup receiver with
  | some receiver_vec => receiver_vec.length
  | none => 0

/-- Modelled from the spec: account registration with the external
StorageLedger (spec §6; storage_impl.rs is declared in lib.rs but absent
from src/). Registration creates the account's ledger entry or tops up
its available credit, and never touches the mail state. -/
def Contract.register (st : Contract) (account : AccountId) (amount : Nat) :
    Contract :=
  match st.accounts.lookup account with
  | some v =>
      { st with accounts :=
          st.accounts.insert account { v with available := v.available + amount } }
  | none =>
      { st with accounts :=
          st.accounts.insert account { available := amount, used := 0 } }

/-- One committed public mutating call (the inputs of one invocation). -/
inductive Op where
  | send (e : Env) (receiver : AccountId) (title content : String)
      (fee : Option Nat)
  | delete (e : Env) (email_id : EmailID)
  | addDonation (account : AccountId)
  | register (account : AccountId) (amount : Nat)
deriving Repr

/-- Committed post-state of one call (on error the pre-state, per the
atomic call semantics). -/
def applyOp (st : Contract) : Op → Contract
  | .send e receiver title content fee =>
      (st.send_mail e receiver title content fee).1
  | .delete e email_id => (st.delete_mail e email_id).1
  | .addDonation account => st.add_donation_contract_account account
  | .register account amount => st.register account amount

/-- Run a sequence of calls from a state. -/
def run (st : Contract) : List Op → Contract
  | [] => st
  | op :: rest => run (applyOp st op) rest

/-- A state reachable from the freshly initialised contract by some
sequence of public calls. -/
def Reachable (st : Contract) : Prop :=
  ∃ ops : List Op, run Contract.new ops = st

/-- The ids assigned by the successful sends in a call sequence, in
order: a successful send stores its email under the pre-call
`email_count`. -/
def sentIds (st : Contract) : List Op → List EmailID
  | [] => []
  | .send e receiver title content fee :: rest =>
      let r := st.send_mail e receiver title content fee
      if r.2 = none then st.email_count :: sentIds r.1 rest
      else sentIds r.1 rest
  | op :: rest => sentIds (applyOp st op) rest

/-- Concrete call environment for the account "alice" (unit byte cost
and unit `STORAGE_PER_MAIL`, one yocto attached). -/
def envA : Env :=
  { predecessor := "alice", block_timestamp := 11, attached_deposit := 1,
    storage_byte_cost := 1, storage_per_mail := 1 }

/-- The same environment with "bob" as the caller. -/
def envB : Env := { envA with predecessor := "bob" }

/-- The same environment with the donation account "xd" as the caller. -/
def envX : Env := { envA with predecessor := "xd" }

/-- State with "alice" and "bob" registered with ample credit. -/
def stReg : Contract := (Contract.new.register "alice" 100).register "bob" 100

/-- `stReg` after "alice" successfully sent mail id 0 to "bob". -/
def stOne : Contract := (stReg.send_mail envA "bob" "t1" "c1" none).1

/-- `stOne` after "bob" successfully sent mail id 1 to "alice". -/
def stTwo : Contract := (stOne.send_mail envB "alice" "t2" "c2" none).1

/-- `stTwo` after "bob" called `delete_mail(0)` on "alice"'s mail. -/
def stDel : Contract := (stTwo.delete_mail envB 0).1

/-- State with "xd" registered and configured as the donation account. -/
def stDon : Contract :=
  (Contract.new.register "xd" 100).add_donation_contract_account "xd"

/-- The intermediate state `send_mail` has built at the moment the fee
assert fires in `stDon`: the caller's `used` counter is already charged
and `email_count` already incremented. -/
def stDonMid : Contract :=
  { senders := [], receivers := [], emails := [], email_count := 1,
    accounts := [("xd", { available := 100, used := 1 })],
    donation_contract_account := some "xd" }

/-- A demonstration call sequence: two registrations, two sends, one
successful delete. -/
def opsDemo : List Op :=
  [Op.register "alice" 100, Op.register "bob" 100,
   Op.send envA "bob" "t1" "c1" none, Op.send envB "alice" "t2" "c2" none,
   Op.delete envB 0]

/-- The state reached by `opsDemo`. -/
def stDemo : Contract := run Contract.new opsDemo

theorem Fmap.lookup_insert_self {α β : Type} [DecidableEq α]
    (m : Fmap α β) (a : α) (b : β) : (m.insert a b).lookup a = some b := by
  induction m with
  | nil => simp [Fmap.insert, Fmap.lookup]
  | cons kv rest ih =>
    obtain ⟨k, v⟩ := kv
    by_cases hk : k = a
    · subst hk; simp [Fmap.insert, Fmap.lookup]
    · simp [Fmap.insert, Fmap.lookup, hk, ih]

theorem Fmap.length_insert_le {α β : Type} [DecidableEq α]
    (m : Fmap α β) (a : α) (b : β) :
    (m.insert a b).length ≤ m.length + 1 := by
  induction m with
  | nil => simp [Fmap.insert]
  | cons kv rest ih =>
    obtain ⟨k, v⟩ := kv
    by_cases hk : k = a
    · subst hk; simp [Fmap.insert]
    · simpa [Fmap.insert, hk] using ih

theorem Fmap.lookup_remove_self {α β : Type} [DecidableEq α]
    (m : Fmap α β) (a : α) : (m.remove a).lookup a = none := by
  induction m with
  | nil => simp [Fmap.remove, Fmap.lookup]
  | cons kv rest ih =>
    obtain ⟨k, v⟩ := kv
    by_cases hk : k = a
    · subst hk; simp [Fmap.remove, ih]
    · simp [Fmap.remove, Fmap.lookup, hk, ih]

theorem Fmap.length_remove_le {α β : Type} [DecidableEq α]
    (m : Fmap α β) (a : α) : (m.remove a).length ≤ m.length := by
  induction m with
  | nil => simp [Fmap.remove]
  | cons kv rest ih =>
    obtain ⟨k, v⟩ := kv
    by_cases hk : k = a
    · subst hk; simp [Fmap.remove]; omega
    · simp [Fmap.remove, hk]; omega

theorem mem_setInsert_self (s : List EmailID) (x : EmailID) :
    x ∈ setInsert s x := by
  by_cases hx : x ∈ s <;> simp [setInsert, hx]


theorem send_mail_ok_spec (st : Contract) (e : Env) (receiver : AccountId)
    (title content : String) (fee : Option Nat) (s : Contract)
    (h : st.send_mail_raw e receiver title content fee = .ok s) :
    ∃ vaccount,
      st.accounts.lookup e.predecessor = some vaccount ∧
      s.email_count = st.email_count + 1 ∧
      s.emails = st.emails.insert st.email_count
        { title := title, content := content,
          timestamp := e.block_timestamp, fee := fee } ∧
      s.accounts.lookup e.predecessor =
        some { vaccount with
               used := vaccount.used +
                 e.storage_per_mail * e.storage_byte_cost } ∧
      (∃ sset, s.senders.lookup e.predecessor = some sset ∧
        st.email_count ∈ sset) ∧
      (∃ rset, s.receivers.lookup receiver = some rset ∧
        st.email_count ∈ rset) := by
  unfold Contract.send_mail_raw at h
  by_cases hy : e.attached_deposit ≠ 1
  · simp only [if_pos hy] at h; exact TxResult.noConfusion h
  · simp only [if_neg hy] at h
    rcases ha : st.accounts.lookup e.predecessor with _ | vaccount <;>
      simp only [ha] at h
    · exact TxResult.noConfusion h
    rcases hc : st.can_send_mail e e.predecessor with _ | b <;>
      simp only [hc] at h
    · exact TxResult.noConfusion h
    cases b
    · exact TxResult.noConfusion h
    simp only at h
    by_cases hf : st.donation_contract_account = some e.predecessor ∧ fee.isSome = true
    · simp only [if_pos hf] at h; exact TxResult.noConfusion h
    · simp only [if_neg hf] at h
      rcases hs : st.senders.lookup e.predecessor with _ | sender_vec <;>
        simp only [hs] at h
      · rcases hr : st.receivers.lookup receiver with _ | receiver_vec <;>
          simp only [hr] at h <;>
        · injection h with h'
          subst h'
          exact ⟨vaccount, rfl, rfl, rfl, Fmap.lookup_insert_self _ _ _,
            ⟨_, Fmap.lookup_insert_self _ _ _, mem_setInsert_self _ _⟩,
            ⟨_, Fmap.lookup_insert_self _ _ _, mem_setInsert_self _ _⟩⟩
      · rcases hr : st.receivers.lookup receiver with _ | receiver_vec <;>
          simp only [hr] at h <;>
        · injection h with h'
          subst h'
          exact ⟨vaccount, rfl, rfl, rfl, Fmap.lookup_insert_self _ _ _,
            ⟨_, Fmap.lookup_insert_self _ _ _, mem_setInsert_self _ _⟩,
            ⟨_, Fmap.lookup_insert_self _ _ _, mem_setInsert_self _ _⟩⟩


theorem send_mail_fee_halt_spec (st : Contract) (e : Env)
    (receiver : AccountId) (title content : String) (fee : Option Nat)
    (m : Contract)
    (h : st.send_mail_raw e receiver title content fee =
      .halted .feeNotAllowed m) :
    m.email_count = st.email_count + 1 ∧
    st.donation_contract_account = some e.predecessor ∧
    fee.isSome = true ∧
    ∃ vaccount,
      st.accounts.lookup e.predecessor = some vaccount ∧
      m.accounts.lookup e.predecessor =
        some { vaccount with
               used := vaccount.used +
                 e.storage_per_mail * e.storage_byte_cost } := by
  unfold Contract.send_mail_raw at h
  by_cases hy : e.attached_deposit ≠ 1
  · simp only [if_pos hy] at h
    injection h with h1 h2
    exact MailError.noConfusion h1
  · simp only [if_neg hy] at h
    rcases ha : st.accounts.lookup e.predecessor with _ | vaccount <;>
      simp only [ha] at h
    · injection h with h1 h2; exact MailError.noConfusion h1
    rcases hc : st.can_send_mail e e.predecessor with _ | b <;>
      simp only [hc] at h
    · injection h with h1 h2; exact MailError.noConfusion h1
    cases b
    · injection h with h1 h2; exact MailError.noConfusion h1
    simp only at h
    by_cases hf : st.donation_contract_account = some e.predecessor ∧
        fee.isSome = true
    · simp only [if_pos hf] at h
      injection h with h1 h2
      subst h2
      exact ⟨rfl, hf.1, hf.2, vaccount, rfl, Fmap.lookup_insert_self _ _ _⟩
    · simp only [if_neg hf] at h
      exact TxResult.noConfusion h

theorem send_mail_def (st : Contract) (e : Env) (receiver : AccountId)
    (title content : String) (fee : Option Nat) :
    st.send_mail e receiver title content fee =
      match st.send_mail_raw e receiver title content fee with
      | .ok s => (s, none)
      | .halted err _ => (st, some err) := rfl

theorem send_mail_err_pre (st : Contract) (e : Env) (receiver : AccountId)
    (title content : String) (fee : Option Nat) (err : MailError)
    (h : (st.send_mail e receiver title content fee).2 = some err) :
    (st.send_mail e receiver title content fee).1 = st := by
  rcases hraw : st.send_mail_raw e receiver title content fee with s | ⟨err', m⟩
  · rw [send_mail_def, hraw] at h
    exact Option.noConfusion h
  · rw [send_mail_def, hraw]

theorem send_mail_ok_raw (st : Contract) (e : Env) (receiver : AccountId)
    (title content : String) (fee : Option Nat)
    (h : (st.send_mail e receiver title content fee).2 = none) :
    st.send_mail_raw e receiver title content fee =
      .ok (st.send_mail e receiver title content fee).1 := by
  rcases hraw : st.send_mail_raw e receiver title content fee with s | ⟨err', m⟩
  · rw [send_mail_def, hraw]
  · rw [send_mail_def, hraw] at h
    exact Option.noConfusion h

theorem delete_mail_ok_spec (st : Contract) (e : Env) (email_id : EmailID)
    (s : Contract) (h : st.delete_mail_raw e email_id = .ok s) :
    (∃ sender_set, st.senders.lookup e.predecessor = some sender_set ∧
      email_id ∉ sender_set) ∧
    s = { st with emails := st.emails.remove email_id } := by
  unfold Contract.delete_mail_raw at h
  rcases hs : st.senders.lookup e.predecessor with _ | sender_set <;>
    simp only [hs] at h
  · exact TxResult.noConfusion h
  · by_cases hm : email_id ∈ sender_set
    · simp only [if_pos hm] at h; exact TxResult.noConfusion h
    · simp only [if_neg hm] at h
      injection h with h'
      exact ⟨⟨sender_set, rfl, hm⟩, h'.symm⟩

theorem delete_mail_def (st : Contract) (e : Env) (email_id : EmailID) :
    st.delete_mail e email_id =
      match st.delete_mail_raw e email_id with
      | .ok s => (s, none)
      | .halted err _ => (st, some err) := rfl

theorem delete_mail_err_pre (st : Contract) (e : Env) (email_id : EmailID)
    (err : MailError)
    (h : (st.delete_mail e email_id).2 = some err) :
    (st.delete_mail e email_id).1 = st := by
  rcases hraw : st.delete_mail_raw e email_id with s | ⟨err', m⟩
  · rw [delete_mail_def, hraw] at h
    exact Option.noConfusion h
  · rw [delete_mail_def, hraw]

theorem delete_mail_ok_raw (st : Contract) (e : Env) (email_id : EmailID)
    (h : (st.delete_mail e email_id).2 = none) :
    st.delete_mail_raw e email_id = .ok (st.delete_mail e email_id).1 := by
  rcases hraw : st.delete_mail_raw e email_id with s | ⟨err', m⟩
  · rw [delete_mail_def, hraw]
  · rw [delete_mail_def, hraw] at h
    exact Option.noConfusion h

theorem register_preserves (st : Contract) (account : AccountId)
    (amount : Nat) :
    (st.register account amount).emails = st.emails ∧
    (st.register account amount).email_count = st.email_count ∧
    (st.register account amount).senders = st.senders := by
  unfold Contract.register
  rcases st.accounts.lookup account with _ | v <;> exact ⟨rfl, rfl, rfl⟩

theorem send_mail_ok_count (st : Contract) (e : Env) (receiver : AccountId)
    (title content : String) (fee : Option Nat)
    (h : (st.send_mail e receiver title content fee).2 = none) :
    (st.send_mail e receiver title content fee).1.email_count =
      st.email_count + 1 := by
  obtain ⟨v, _, hcount, _⟩ := send_mail_ok_spec st e receiver title content fee _
    (send_mail_ok_raw st e receiver title content fee h)
  exact hcount

theorem applyOp_email_count_le (st : Contract) (op : Op) :
    st.email_count ≤ (applyOp st op).email_count := by
  cases op with
  | send e receiver title content fee =>
    simp only [applyOp]
    rcases h2 : (st.send_mail e receiver title content fee).2 with _ | err
    · rw [send_mail_ok_count st e receiver title content fee h2]
      omega
    · rw [send_mail_err_pre st e receiver title content fee err h2]
  | delete e email_id =>
    simp only [applyOp]
    rcases h2 : (st.delete_mail e email_id).2 with _ | err
    · obtain ⟨_, hs⟩ := delete_mail_ok_spec st e email_id _
        (delete_mail_ok_raw st e email_id h2)
      rw [hs]
    · rw [delete_mail_err_pre st e email_id err h2]
  | addDonation account => simp [applyOp, Contract.add_donation_contract_account]
  | register account amount =>
    simp only [applyOp]
    rw [(register_preserves st account amount).2.1]

theorem applyOp_live_le (st : Contract) (op : Op)
    (h : st.emails.length ≤ st.email_count) :
    (applyOp st op).emails.length ≤ (applyOp st op).email_count := by
  cases op with
  | send e receiver title content fee =>
    simp only [applyOp]
    rcases h2 : (st.send_mail e receiver title content fee).2 with _ | err
    · obtain ⟨v, _, hcount, hemails, _⟩ :=
        send_mail_ok_spec st e receiver title content fee _
          (send_mail_ok_raw st e receiver title content fee h2)
      rw [hcount, hemails]
      have := Fmap.length_insert_le st.emails st.email_count
        { title := title, content := content,
          timestamp := e.block_timestamp, fee := fee }
      omega
    · rw [send_mail_err_pre st e receiver title content fee err h2]
      exact h
  | delete e email_id =>
    simp only [applyOp]
    rcases h2 : (st.delete_mail e email_id).2 with _ | err
    · obtain ⟨_, hs⟩ := delete_mail_ok_spec st e email_id _
        (delete_mail_ok_raw st e email_id h2)
      rw [hs]
      have := Fmap.length_remove_le st.emails email_id
      simp only []
      omega
    · rw [delete_mail_err_pre st e email_id err h2]
      exact h
  | addDonation account =>
    simpa [applyOp, Contract.add_donation_contract_account] using h
  | register account amount =>
    simp only [applyOp]
    rw [(register_preserves st account amount).1,
      (register_preserves st account amount).2.1]
    exact h

theorem run_email_count_le (ops : List Op) :
    ∀ st : Contract, st.email_count ≤ (run st ops).email_count := by
  induction ops with
  | nil => intro st; exact le_refl _
  | cons op rest ih =>
    intro st
    exact le_trans (applyOp_email_count_le st op) (ih (applyOp st op))

theorem run_live_le (ops : List Op) :
    ∀ st : Contract, st.emails.length ≤ st.email_count →
      (run st ops).emails.length ≤ (run st ops).email_count := by
  induction ops with
  | nil => intro st h; exact h
  | cons op rest ih =>
    intro st h
    exact ih (applyOp st op) (applyOp_live_le st op h)

theorem sentIds_bounds (ops : List Op) : ∀ st : Contract,
    (∀ x ∈ sentIds st ops, st.email_count ≤ x) ∧
    List.Chain' (· < ·) (sentIds st ops) := by
  induction ops with
  | nil => intro st; simp [sentIds]
  | cons op rest ih =>
    intro st
    cases op with
    | send e receiver title content fee =>
      rcases h2 : (st.send_mail e receiver title content fee).2 with _ | err
      · have hsent : sentIds st (Op.send e receiver title content fee :: rest) =
            st.email_count ::
              sentIds (st.send_mail e receiver title content fee).1 rest := by
          simp [sentIds, h2]
        have hcount := send_mail_ok_count st e receiver title content fee h2
        have hrest := ih (st.send_mail e receiver title content fee).1
        rw [hsent]
        constructor
        · intro x hx
          rcases List.mem_cons.mp hx with rfl | hx'
          · exact le_refl _
          · have := hrest.1 x hx'
            omega
        · refine List.chain'_cons'.mpr ⟨?_, hrest.2⟩
          intro b hb
          have hbm := hrest.1 b (List.mem_of_mem_head? hb)
          rw [hcount] at hbm
          exact Nat.lt_of_succ_le hbm
      · have hpre := send_mail_err_pre st e receiver title content fee err h2
        have hsent : sentIds st (Op.send e receiver title content fee :: rest) =
            sentIds (st.send_mail e receiver title content fee).1 rest := by
          simp [sentIds, h2]
        rw [hsent, hpre]
        exact ih st
    | delete e email_id =>
      have hsent : sentIds st (Op.delete e email_id :: rest) =
          sentIds (applyOp st (Op.delete e email_id)) rest := by
        simp [sentIds, applyOp]
      rw [hsent]
      have hrest := ih (applyOp st (Op.delete e email_id))
      refine ⟨fun x hx => le_trans (applyOp_email_count_le st _)
        (hrest.1 x hx), hrest.2⟩
    | addDonation account =>
      have hsent : sentIds st (Op.addDonation account :: rest) =
          sentIds (applyOp st (Op.addDonation account)) rest := by
        simp [sentIds, applyOp]
      rw [hsent]
      have hrest := ih (applyOp st (Op.addDonation account))
      refine ⟨fun x hx => le_trans (applyOp_email_count_le st _)
        (hrest.1 x hx), hrest.2⟩
    | register account amount =>
      have hsent : sentIds st (Op.register account amount :: rest) =
          sentIds (applyOp st (Op.register account amount)) rest := by
        simp [sentIds, applyOp]
      rw [hsent]
      have hrest := ih (applyOp st (Op.register account amount))
      refine ⟨fun x hx => le_trans (applyOp_email_count_le st _)
        (hrest.1 x hx), hrest.2⟩

/-- C1: the claim says delete(caller, id) succeeds iff id is in the
caller's sender set, failing NotSender otherwise. The code evaluates the
opposite guard: in `stTwo`, "alice" is the recorded sender of mail 0 and
the mail is fetchable, yet her delete fails with the "Caller is not
sender" panic; "bob", who is not a sender of 0, successfully deletes it,
after which the mail is gone. -/
theorem C1_delete_guard_inverted :
    stTwo.senders.lookup "alice" = some [0] ∧
    stTwo.get_email 0 =
      .ok { title := "t1", content := "c1", timestamp := 11, fee := none } ∧
    (stTwo.delete_mail envA 0).2 = some MailError.notSender ∧
    (stTwo.delete_mail envA 0).1.get_email 0 =
      .ok { title := "t1", content := "c1", timestamp := 11, fee := none } ∧
    (stTwo.delete_mail envB 0).2 = none ∧
    (stTwo.delete_mail envB 0).1.get_email 0 = .halted .notFound := by
  decide

/-- C2: the claim says listSent/listReceived silently drop ids that no
longer resolve and never fail on a stale index entry. In `stDel` the id
0 is still listed for sender "alice" and receiver "bob" but no longer
resolves, and both list operations abort with the NotFound unwrap panic
instead of returning the remaining mails. -/
theorem C2_list_abort_on_stale :
    stDel.senders.lookup "alice" = some [0] ∧
    stDel.emails.lookup 0 = none ∧
    stDel.get_mail_send "alice" = .halted .notFound ∧
    stDel.get_mail_receive "bob" = .halted .notFound := by
  decide

/-- C3: for a registered account, can_send_mail returns exactly the
strict comparison available > (1 + countSent) * STORAGE_PER_MAIL *
unitCost (countSent being 0 when the account has no sender set), and in
particular returns false when the available credit exactly equals the
required amount. -/
theorem C3_quota_strict_guard (st : Contract) (e : Env)
    (account : AccountId) (avail : Nat)
    (h : st.storage_balance_of account = some avail) :
    st.can_send_mail e account =
      some (decide (avail > (1 + st.get_mail_send_num account) *
        e.storage_per_mail * e.storage_byte_cost)) ∧
    (avail = (1 + st.get_mail_send_num account) *
        e.storage_per_mail * e.storage_byte_cost →
      st.can_send_mail e account = some false) := by
  have h1 : st.can_send_mail e account =
      some (decide (avail > (1 + st.get_mail_send_num account) *
        e.storage_per_mail * e.storage_byte_cost)) := by
    unfold Contract.can_send_mail Contract.get_mail_send_num
    rw [h]
    rcases hs : st.senders.lookup account with _ | sender_vec
    · norm_num
    · norm_num [Nat.add_comm]
  refine ⟨h1, fun heq => ?_⟩
  rw [h1]
  congr 1
  rw [← heq]
  simp

theorem C3_quota_strict_guard_witness :
    (Contract.new.register "p" 1).can_send_mail envA "p" = some false :=
  (C3_quota_strict_guard (Contract.new.register "p" 1) envA "p" 1
    (by decide)).2 (by decide)

/-- C4: in every reachable state, deletedCount (mail_delete) plus
liveCount (mail_exist) equals totalCreated (email_count), and the
subtraction inside mail_delete cannot underflow because the live count
never exceeds email_count. -/
theorem C4_deleted_plus_live_eq_total (st : Contract) (h : Reachable st) :
    st.mail_delete + st.mail_exist = st.email_count ∧
    st.mail_exist ≤ st.email_count := by
  obtain ⟨ops, rfl⟩ := h
  have hle := run_live_le ops Contract.new (by decide)
  refine ⟨?_, hle⟩
  unfold Contract.mail_delete Contract.mail_exist
  omega

theorem C4_deleted_plus_live_eq_total_witness :
    stDemo.mail_delete + stDemo.mail_exist = stDemo.email_count ∧
    stDemo.mail_exist ≤ stDemo.email_count :=
  C4_deleted_plus_live_eq_total stDemo ⟨opsDemo, rfl⟩

/-- C5: every error of a mutating operation leaves the committed state
equal to the pre-state (the call semantics revert the traced mutations);
in particular a FeeNotAllowed send has, at the panic point of its traced
body, already incremented email_count and charged the caller's used
counter, and the committed result is still the unchanged pre-state. -/
theorem C5_error_atomicity :
    (∀ (st : Contract) (e : Env) (receiver : AccountId)
        (title content : String) (fee : Option Nat) (err : MailError),
      (st.send_mail e receiver title content fee).2 = some err →
      (st.send_mail e receiver title content fee).1 = st) ∧
    (∀ (st : Contract) (e : Env) (email_id : EmailID) (err : MailError),
      (st.delete_mail e email_id).2 = some err →
      (st.delete_mail e email_id).1 = st) ∧
    (∀ (st : Contract) (e : Env) (receiver : AccountId)
        (title content : String) (fee : Option Nat) (m : Contract),
      st.send_mail_raw e receiver title content fee =
        .halted .feeNotAllowed m →
      m.email_count = st.email_count + 1 ∧
      (∃ v, st.accounts.lookup e.predecessor = some v ∧
        m.accounts.lookup e.predecessor =
          some { v with
                 used := v.used +
                   e.storage_per_mail * e.storage_byte_cost }) ∧
      st.send_mail e receiver title content fee =
        (st, some MailError.feeNotAllowed)) := by
  refine ⟨send_mail_err_pre, delete_mail_err_pre, ?_⟩
  intro st e receiver title content fee m hm
  obtain ⟨h1, _, _, h2⟩ :=
    send_mail_fee_halt_spec st e receiver title content fee m hm
  refine ⟨h1, h2, ?_⟩
  rw [send_mail_def, hm]

theorem C5_error_atomicity_witness :
    stDonMid.email_count = stDon.email_count + 1 ∧
    (∃ v, stDon.accounts.lookup envX.predecessor = some v ∧
      stDonMid.accounts.lookup envX.predecessor =
        some { v with
               used := v.used +
                 envX.storage_per_mail * envX.storage_byte_cost }) ∧
    stDon.send_mail envX "bob" "t" "c" (some 5) =
      (stDon, some MailError.feeNotAllowed) :=
  C5_error_atomicity.2.2 stDon envX "bob" "t" "c" (some 5) stDonMid
    (by decide)

/-- C6: a successful send charges the caller's used counter by exactly
STORAGE_PER_MAIL * unitCost, increments email_count by one, stores the
new email under the freshly assigned id (the pre-call email_count), and
records that id in both the caller's sender set and the receiver's
receiver set. -/
theorem C6_send_effects (st : Contract) (e : Env) (receiver : AccountId)
    (title content : String) (fee : Option Nat)
    (h : (st.send_mail e receiver title content fee).2 = none) :
    ∃ vaccount,
      st.accounts.lookup e.predecessor = some vaccount ∧
      (st.send_mail e receiver title content fee).1.accounts.lookup
          e.predecessor =
        some { vaccount with
               used := vaccount.used +
                 e.storage_per_mail * e.storage_byte_cost } ∧
      (st.send_mail e receiver title content fee).1.email_count =
        st.email_count + 1 ∧
      (st.send_mail e receiver title content fee).1.emails.lookup
          st.email_count =
        some { title := title, content := content,
               timestamp := e.block_timestamp, fee := fee } ∧
      (∃ sset, (st.send_mail e receiver title content fee).1.senders.lookup
          e.predecessor = some sset ∧ st.email_count ∈ sset) ∧
      (∃ rset, (st.send_mail e receiver title content fee).1.receivers.lookup
          receiver = some rset ∧ st.email_count ∈ rset) := by
  obtain ⟨v, hv, hcount, hemails, hacc, hsend, hrecv⟩ :=
    send_mail_ok_spec st e receiver title content fee _
      (send_mail_ok_raw st e receiver title content fee h)
  refine ⟨v, hv, hacc, hcount, ?_, hsend, hrecv⟩
  rw [hemails]
  exact Fmap.lookup_insert_self _ _ _

theorem C6_send_effects_witness :
    ∃ vaccount,
      stReg.accounts.lookup envA.predecessor = some vaccount ∧
      (stReg.send_mail envA "bob" "t1" "c1" none).1.accounts.lookup
          envA.predecessor =
        some { vaccount with
               used := vaccount.used +
                 envA.storage_per_mail * envA.storage_byte_cost } ∧
      (stReg.send_mail envA "bob" "t1" "c1" none).1.email_count =
        stReg.email_count + 1 ∧
      (stReg.send_mail envA "bob" "t1" "c1" none).1.emails.lookup
          stReg.email_count =
        some { title := "t1", content := "c1",
               timestamp := envA.block_timestamp, fee := none } ∧
      (∃ sset, (stReg.send_mail envA "bob" "t1" "c1" none).1.senders.lookup
          envA.predecessor = some sset ∧ stReg.email_count ∈ sset) ∧
      (∃ rset, (stReg.send_mail envA "bob" "t1" "c1" none).1.receivers.lookup
          "bob" = some rset ∧ stReg.email_count ∈ rset) :=
  C6_send_effects stReg envA "bob" "t1" "c1" none (by decide)

/-- C7: over any call sequence from any state, the ids assigned by the
successful sends are strictly increasing (hence never reused, deletes
interleaved or not), and the email_count counter never decreases. -/
theorem C7_monotonic_ids (st : Contract) (ops : List Op) :
    List.Chain' (· < ·) (sentIds st ops) ∧
    st.email_count ≤ (run st ops).email_count :=
  ⟨(sentIds_bounds ops st).2, run_email_count_le ops st⟩

/-- C8: a successful delete leaves both indices untouched (so
countSent of the caller is unchanged) while fetch of the deleted id
fails NotFound. -/
theorem C8_index_non_pruning (st : Contract) (e : Env) (email_id : EmailID)
    (h : (st.delete_mail e email_id).2 = none) :
    (st.delete_mail e email_id).1.senders = st.senders ∧
    (st.delete_mail e email_id).1.receivers = st.receivers ∧
    (st.delete_mail e email_id).1.get_mail_send_num e.predecessor =
      st.get_mail_send_num e.predecessor ∧
    (st.delete_mail e email_id).1.get_email email_id = .halted .notFound := by
  obtain ⟨_, hs⟩ := delete_mail_ok_spec st e email_id _
    (delete_mail_ok_raw st e email_id h)
  rw [hs]
  refine ⟨rfl, rfl, rfl, ?_⟩
  unfold Contract.get_email
  simp [Fmap.lookup_remove_self]

theorem C8_index_non_pruning_witness :
    (stTwo.delete_mail envB 0).1.senders = stTwo.senders ∧
    (stTwo.delete_mail envB 0).1.receivers = stTwo.receivers ∧
    (stTwo.delete_mail envB 0).1.get_mail_send_num envB.predecessor =
      stTwo.get_mail_send_num envB.predecessor ∧
    (stTwo.delete_mail envB 0).1.get_email 0 = .halted .notFound :=
  C8_index_non_pruning stTwo envB 0 (by decide)

/-- C9 counterexample: with "xd" configured as the distinguished
account but not registered, a send by "xd" with a fee fails with
AccountNotRegistered, not FeeNotAllowed, so the claim as stated (every
send by the distinguished account with a fee fails FeeNotAllowed) is
false. -/
theorem C9_counterexample :
    (Contract.new.add_donation_contract_account "xd").donation_contract_account
      = some "xd" ∧
    ((Contract.new.add_donation_contract_account "xd").send_mail envX
      "bob" "t" "c" (some 5)).2 = some MailError.accountNotRegistered ∧
    some MailError.accountNotRegistered ≠ some MailError.feeNotAllowed := by
  decide

/-- C9 (amended): once the distinguished account's send reaches the fee
check (one yocto attached, registered, quota passed), a fee = Some v
always fails FeeNotAllowed; and a send never fails FeeNotAllowed when
the caller is not the distinguished account or the fee is None. -/
theorem C9_no_fee_enforcement (st : Contract) (e : Env)
    (receiver : AccountId) (title content : String) :
    (∀ v : Nat, st.donation_contract_account = some e.predecessor →
      e.attached_deposit = 1 →
      st.can_send_mail e e.predecessor = some true →
      (st.send_mail e receiver title content (some v)).2 =
        some MailError.feeNotAllowed) ∧
    (∀ fee : Option Nat,
      st.donation_contract_account ≠ some e.predecessor ∨ fee = none →
      (st.send_mail e receiver title content fee).2 ≠
        some MailError.feeNotAllowed) := by
  constructor
  · intro v hdon hdep hc
    rcases ha : st.accounts.lookup e.predecessor with _ | va
    · exfalso
      have hsb : st.storage_balance_of e.predecessor = none := by
        unfold Contract.storage_balance_of
        rw [ha]
        rfl
      unfold Contract.can_send_mail at hc
      rw [hsb] at hc
      exact Option.noConfusion hc
    · rw [send_mail_def]
      simp [Contract.send_mail_raw, hdep, ha, hc, hdon]
  · intro fee hcond heq
    rcases hraw : st.send_mail_raw e receiver title content fee with s | ⟨err, m⟩
    · rw [send_mail_def, hraw] at heq
      exact Option.noConfusion heq
    · rw [send_mail_def, hraw] at heq
      have herr : some err = some MailError.feeNotAllowed := heq
      injection herr with herr
      subst herr
      obtain ⟨_, hdon, hfee, _⟩ :=
        send_mail_fee_halt_spec st e receiver title content fee m hraw
      rcases hcond with hne | hnone
      · exact hne hdon
      · subst hnone
        exact Bool.noConfusion hfee

theorem C9_no_fee_enforcement_witness :
    (stDon.send_mail envX "bob" "t" "c" (some 5)).2 =
      some MailError.feeNotAllowed ∧
    (stReg.send_mail envA "bob" "t1" "c1" none).2 ≠
      some MailError.feeNotAllowed :=
  ⟨(C9_no_fee_enforcement stDon envX "bob" "t" "c").1 5
      (by decide) (by decide) (by decide),
    (C9_no_fee_enforcement stReg envA "bob" "t1" "c1").2 none (Or.inr rfl)⟩

/-- C10: a delete by a caller with no sender set at all aborts on the
unwrap of the absent set (a plain unwrap-on-None panic, not the
NotSender error), and this is reachable from the public interface. -/
theorem C10_delete_unwrap_missing_set (st : Contract) (e : Env)
    (email_id : EmailID)
    (h : st.senders.lookup e.predecessor = none) :
    st.delete_mail e email_id = (st, some MailError.noneUnwrap) ∧
    MailError.noneUnwrap ≠ MailError.notSender := by
  constructor
  · rw [delete_mail_def]
    simp [Contract.delete_mail_raw, h]
  · decide

theorem C10_delete_unwrap_missing_set_witness :
    Contract.new.delete_mail envA 0 =
      (Contract.new, some MailError.noneUnwrap) ∧
    MailError.noneUnwrap ≠ MailError.notSender :=
  C10_delete_unwrap_missing_set Contract.new envA 0 (by decide)

end NearMessage
